import Mathlib

/-!
# Verification of the FFI marshaller (`runtime/vm/compiler/ffi/marshaller.h`)

Shallow embedding of the marshaller data model and operations.

The repository contains only the header `marshaller.h`.  Functions whose
bodies are inline in the header (`Location`, `RequiresBitCast`,
`IsPointer`/`IsHandle`/`IsBool`/`IsVoid`, `dart_signature_params_start_at`,
the `CallbackMarshaller` constructor, `LocationOfNativeParameter`) are
translated directly from the source.  Functions only declared in the header
(the index-translation family, the factory functions, `ReturnsCompound`,
`NativeLocationOfNativeParameter`) are modelled from the specification, and
are marked `Modelled from the spec:` in their doc comments.

Machine integers (`intptr_t`) are modelled as `Int`; the reserved return
sentinel `kResultIndex = -1` makes argument indices genuinely signed.
-/

namespace FfiMarshaller

/-- The kind of a native type, as far as the marshaller queries it:
an integer fundamental type, a floating-point fundamental type, or a
composite (struct-like) type carrying its size in bytes.  Modelled from the
spec: the `NativeType` model is an external dependency (only its
`IsFloat`/`IsInt`/compound-size queries are consumed here). -/
inductive NativeTypeKind where
  | int : NativeTypeKind
  | float : NativeTypeKind
  | compound (sizeInBytes : Nat) : NativeTypeKind
deriving DecidableEq, Repr

/-- `NativeType::IsFloat()`. -/
def NativeTypeKind.IsFloat : NativeTypeKind → Bool
  | .float => true
  | _ => false

/-- `NativeType::IsInt()`. -/
def NativeTypeKind.IsInt : NativeTypeKind → Bool
  | .int => true
  | _ => false

/-- `NativeType::IsCompound()`. -/
def NativeTypeKind.IsCompound : NativeTypeKind → Bool
  | .compound _ => true
  | _ => false

/-- A concrete native location, as produced by the calling-convention
classifier.  Modelled from the spec: a leaf classification is a single
register or a stack slot at a byte offset; a composite value may be a
"pointer to memory" wrapper containing the location of the pointer, or a
sequence of several sub-locations. -/
inductive NativeLocation where
  | register (payload container : NativeTypeKind)
  | stackSlot (offsetInBytes : Nat) (payload container : NativeTypeKind)
  | pointerToMemory (pointerLoc : NativeLocation) (payload : NativeTypeKind)
  | multiple (payload : NativeTypeKind) (locs : List NativeLocation)
deriving Repr

/-- `NativeLocation::payload_type()`. -/
def NativeLocation.payload_type : NativeLocation → NativeTypeKind
  | .register p _ => p
  | .stackSlot _ p _ => p
  | .pointerToMemory _ p => p
  | .multiple p _ => p

/-- `NativeLocation::container_type()`.  For the two composite wrappers the
container coincides with the (compound) payload. -/
def NativeLocation.container_type : NativeLocation → NativeTypeKind
  | .register _ c => c
  | .stackSlot _ _ c => c
  | .pointerToMemory _ p => p
  | .multiple p _ => p

/-- `NativeLocation::IsStack()`: the location is a stack-relative slot. -/
def NativeLocation.IsStack : NativeLocation → Bool
  | .stackSlot .. => true
  | _ => false

/-- `NativeLocation::IsPointerToMemory()`. -/
def NativeLocation.IsPointerToMemory : NativeLocation → Bool
  | .pointerToMemory .. => true
  | _ => false

/-- Modelled from the spec: the number of definitions one argument's
location contributes to the flattened intermediate form — 1 for a
scalar/register/stack location, 1 for pointer-to-memory (the definition
carrying the pointer), N for a composite split across N locations
(`NumDefinitions(argIndex)` is implemented in `marshaller.cc`, absent from
the sources). -/
def NativeLocation.numDefinitions : NativeLocation → Nat
  | .multiple _ locs => locs.length
  | _ => 1

/-- Placeholder location used as the out-of-range default of list lookups
(the C++ `.At()` asserts in range; every theorem below carries the
corresponding bounds hypothesis). -/
def locDefault : NativeLocation := .register .int .int

/-- The classifier's output consumed by the marshaller: one `NativeLocation`
per declared native parameter, a return location, and the variadic flag
(`native_calling_convention.h` is an external collaborator; this models
exactly the three queries the header consumes:  `argument_locations()`,
`return_location()`, `contains_varargs()`). -/
structure NativeCallingConvention where
  argument_locations : List NativeLocation
  return_location : NativeLocation
  contains_varargs : Bool

/-- `kResultIndex`: values below 0 index the result. -/
def kResultIndex : Int := -1

/-- Class id of `Pointer`.  Modelled from the spec: the concrete numeric
class ids live in `vm/class_id.h` (absent from the sources); only their
pairwise distinctness is used. -/
def kPointerCid : Nat := 1

/-- Class id of `ffi.Handle` (distinct from the other class ids). -/
def kFfiHandleCid : Nat := 2

/-- Class id of `ffi.Bool` (distinct from the other class ids). -/
def kFfiBoolCid : Nat := 3

/-- Class id of `ffi.Void` (distinct from the other class ids). -/
def kFfiVoidCid : Nat := 4

/-- `BaseMarshaller`: owns the signature pair and the classifier's output.
The C++ fields `zone_` (arena handle) and `dart_signature_` (used for
names only) are dropped; the `c_signature_` `FunctionType` is modelled by
the class ids of the declared C types, which is all `CType`-based
predicates inspect. -/
structure BaseMarshaller where
  dart_signature_params_start_at : Int
  c_arg_class_ids : List Nat
  c_return_class_id : Nat
  native_calling_convention : NativeCallingConvention

namespace BaseMarshaller

/-- `num_args()`: length of the classifier's argument-location list. -/
def num_args (m : BaseMarshaller) : Int :=
  (m.native_calling_convention.argument_locations.length : Int)

/-- `Location(arg_index)`: the classifier's return location for the return
sentinel, otherwise the argument's location (header, lines 71–76). -/
def Location (m : BaseMarshaller) (arg_index : Int) : NativeLocation :=
  if arg_index = kResultIndex then
    m.native_calling_convention.return_location
  else
    m.native_calling_convention.argument_locations.getD arg_index.toNat locDefault

/-- `RequiresBitCast(index)`: bitcasting floats to ints, only required in
SoftFP (header, lines 92–95). -/
def RequiresBitCast (m : BaseMarshaller) (index : Int) : Bool :=
  (m.Location index).payload_type.IsFloat && (m.Location index).container_type.IsInt

/-- `SignExtendFrom(arg_index)` (header, lines 98–100). -/
def SignExtendFrom (m : BaseMarshaller) (arg_index : Int) : NativeTypeKind :=
  (m.Location arg_index).payload_type

/-- Modelled from the spec: `CType(arg_index)` (implemented in
`marshaller.cc`) returns the declared C type of one argument, here modelled
by its class id; the return sentinel selects the return type. -/
def CTypeClassId (m : BaseMarshaller) (arg_index : Int) : Nat :=
  if arg_index = kResultIndex then m.c_return_class_id
  else m.c_arg_class_ids.getD arg_index.toNat 0

/-- `IsHandle(arg_index)` (header, lines 123–126). -/
def IsHandle (m : BaseMarshaller) (arg_index : Int) : Bool :=
  m.CTypeClassId arg_index == kFfiHandleCid

/-- `IsPointer(arg_index)` (header, lines 112–118): a handle is checked
first and is never reported as a pointer. -/
def IsPointer (m : BaseMarshaller) (arg_index : Int) : Bool :=
  if m.IsHandle arg_index then false
  else m.CTypeClassId arg_index == kPointerCid

/-- `IsBool(arg_index)` (header, lines 127–130). -/
def IsBool (m : BaseMarshaller) (arg_index : Int) : Bool :=
  m.CTypeClassId arg_index == kFfiBoolCid

/-- `IsVoid(arg_index)` (header, lines 135–138). -/
def IsVoid (m : BaseMarshaller) (arg_index : Int) : Bool :=
  m.CTypeClassId arg_index == kFfiVoidCid

/-- `contains_varargs()` (header, lines 142–144). -/
def contains_varargs (m : BaseMarshaller) : Bool :=
  m.native_calling_convention.contains_varargs

/-- Modelled from the spec: `ArgumentIndexIsReturn` (implemented in
`marshaller.cc`) classifies an argument index as the return slot; the
reserved sentinel (`kResultIndex`, the only value below 0, header line 27)
denotes the return value. -/
def ArgumentIndexIsReturn (_m : BaseMarshaller) (arg_index : Int) : Bool :=
  arg_index == kResultIndex

/-- Modelled from the spec: `DefinitionIndexIsReturn` (implemented in
`marshaller.cc`) — values below 0 index the result (header line 27). -/
def DefinitionIndexIsReturn (_m : BaseMarshaller) (def_index_global : Int) : Bool :=
  def_index_global ≤ kResultIndex

/-- The per-argument definition counts, in declaration order. -/
def argDefCounts (m : BaseMarshaller) : List Nat :=
  m.native_calling_convention.argument_locations.map NativeLocation.numDefinitions

/-- Modelled from the spec: `NumReturnDefinitions()` (implemented in
`marshaller.cc`) — the definition count derived from the return's
`NativeLocation`. -/
def NumReturnDefinitions (m : BaseMarshaller) : Nat :=
  m.native_calling_convention.return_location.numDefinitions

/-- Modelled from the spec: the one-argument overload
`NumDefinitions(arg_index)` (implemented in `marshaller.cc`) — the
definition count derived from that argument's `NativeLocation`; the return
sentinel selects the return's count. -/
def NumDefinitionsArg (m : BaseMarshaller) (arg_index : Int) : Nat :=
  if m.ArgumentIndexIsReturn arg_index then m.NumReturnDefinitions
  else (m.Location arg_index).numDefinitions

/-- Modelled from the spec: the zero-argument overload `NumDefinitions()`
(implemented in `marshaller.cc`) — the flattened global definition count
across all arguments in declaration order, return definitions excluded. -/
def NumDefinitions (m : BaseMarshaller) : Nat :=
  m.argDefCounts.sum

/-- Modelled from the spec: `FirstDefinitionIndex(arg_index)` (implemented
in `marshaller.cc`) — the global index of an argument's first definition:
the sum of the preceding arguments' definition counts; the return's
definitions sit below 0, starting at the sentinel. -/
def FirstDefinitionIndex (m : BaseMarshaller) (arg_index : Int) : Int :=
  if arg_index ≤ kResultIndex then kResultIndex
  else ((m.argDefCounts.take arg_index.toNat).sum : Int)

/-- Modelled from the spec: `DefinitionIndex(def_index_in_arg, arg_index)`
(implemented in `marshaller.cc`) — the global definition index of one
definition of one argument; return definitions count downwards from the
sentinel, argument definitions count upwards from the argument's first
definition index. -/
def DefinitionIndex (m : BaseMarshaller) (def_index_in_arg arg_index : Int) : Int :=
  if m.ArgumentIndexIsReturn arg_index then kResultIndex - def_index_in_arg
  else m.FirstDefinitionIndex arg_index + def_index_in_arg

/-- Search for the argument owning a global definition index: walk the
per-argument counts, consuming one count at a time. -/
def findArgIndex : List Nat → Nat → Nat
  | [], _ => 0
  | c :: rest, g => if g < c then 0 else findArgIndex rest (g - c) + 1

/-- Modelled from the spec: `ArgumentIndex(def_index_global)` (implemented
in `marshaller.cc`) — the argument a global definition index belongs to;
indices below 0 belong to the return. -/
def ArgumentIndex (m : BaseMarshaller) (def_index_global : Int) : Int :=
  if m.DefinitionIndexIsReturn def_index_global then kResultIndex
  else (findArgIndex m.argDefCounts def_index_global.toNat : Int)

/-- Modelled from the spec: `DefinitionInArgument(def_index_global,
arg_index)` (implemented in `marshaller.cc`) — the 0-based offset of a
global definition index within its argument; return definitions count
downwards from the sentinel. -/
def DefinitionInArgument (m : BaseMarshaller) (def_index_global arg_index : Int) : Int :=
  if m.ArgumentIndexIsReturn arg_index then kResultIndex - def_index_global
  else def_index_global - m.FirstDefinitionIndex arg_index

end BaseMarshaller

/-- Modelled from the spec: the input a factory inspects — the managed
function's declared C signature (`FunctionType`), reduced to what the
marshaller consumes: the native type of each parameter and of the return,
the class id of each declared C type, and the variadic flag. -/
structure FfiSignature where
  arg_types : List NativeTypeKind
  ret_type : NativeTypeKind
  arg_class_ids : List Nat
  ret_class_id : Nat
  varargs : Bool

/-- The native function type description produced by
`NativeFunctionTypeFromFunctionType`. -/
structure NativeFunctionType where
  argument_types : List NativeTypeKind
  return_type : NativeTypeKind
  varargs : Bool

/-- Modelled from the spec: a type is interop-representable unless it is a
composite with no native representation (here: a composite of size 0,
standing for unsupported field types or missing layout annotations); the
failure is reported through a descriptive, non-empty error string. -/
def checkRepresentable : NativeTypeKind → Except String Unit
  | .compound 0 => .error "composite field type has no native representation"
  | _ => .ok ()

/-- Check every element of a native type list for representability,
failing at the first offending element. -/
def checkRepresentableList : List NativeTypeKind → Except String Unit
  | [] => .ok ()
  | t :: ts =>
    match checkRepresentable t with
    | .error e => .error e
    | .ok _ => checkRepresentableList ts

/-- Modelled from the spec: `NativeFunctionTypeFromFunctionType` (declared
at header lines 32–35, implemented elsewhere) inspects the function
signature and produces the native function type description, failing with
an error string if the signature is not interop-representable. -/
def NativeFunctionTypeFromFunctionType (sig : FfiSignature) :
    Except String NativeFunctionType :=
  match checkRepresentableList sig.arg_types with
  | .error e => .error e
  | .ok _ =>
    match checkRepresentable sig.ret_type with
    | .error e => .error e
    | .ok _ =>
      .ok { argument_types := sig.arg_types
            return_type := sig.ret_type
            varargs := sig.varargs }

/-- Modelled from the spec: the ABI classifier's per-type rule — scalars go
to a register of their own class; a small composite is split across
word-sized chunks; a large composite is passed as a pointer to memory.
Fails with a descriptive error on a type it cannot classify. -/
def classifyType (t : NativeTypeKind) : Except String NativeLocation :=
  match t with
  | .int => .ok (.register .int .int)
  | .float => .ok (.register .float .float)
  | .compound 0 => .error "cannot classify composite of size 0"
  | .compound n =>
    if n ≤ 16 then
      .ok (.multiple (.compound n) (List.replicate ((n + 7) / 8) (.register .int .int)))
    else
      .ok (.pointerToMemory (.register .int .int) (.compound n))

/-- Classify every parameter type, failing at the first offending one. -/
def classifyTypeList : List NativeTypeKind → Except String (List NativeLocation)
  | [] => .ok []
  | t :: ts =>
    match classifyType t with
    | .error e => .error e
    | .ok l =>
      match classifyTypeList ts with
      | .error e => .error e
      | .ok ls => .ok (l :: ls)

/-- Modelled from the spec: the calling-convention classifier — given the
native signature, produces one `NativeLocation` per parameter plus one for
the return value, and reports whether the signature is variadic; fails with
a descriptive error if any type cannot be classified. -/
def classifyConvention (nft : NativeFunctionType) :
    Except String NativeCallingConvention :=
  match classifyTypeList nft.argument_types with
  | .error e => .error e
  | .ok arg_locs =>
    match classifyType nft.return_type with
    | .error e => .error e
    | .ok ret_loc =>
      .ok { argument_locations := arg_locs
            return_location := ret_loc
            contains_varargs := nft.varargs }

/-- `CallMarshaller`: specializes `BaseMarshaller` for the managed→native
direction; adds no fields (header, lines 181–221). -/
structure CallMarshaller where
  base : BaseMarshaller

namespace CallMarshaller

/-- Modelled from the spec: `CallMarshaller::FromFunction` (declared at
header lines 183–187, implemented in `marshaller.cc`) — derives the native
function type and the calling convention from the signature; on failure the
error message is set and no marshaller instance is produced. -/
def FromFunction (sig : FfiSignature) (function_params_start_at : Int) :
    Except String CallMarshaller :=
  match NativeFunctionTypeFromFunctionType sig with
  | .error e => .error e
  | .ok nft =>
    match classifyConvention nft with
    | .error e => .error e
    | .ok conv =>
      .ok { base := { dart_signature_params_start_at := function_params_start_at
                      c_arg_class_ids := sig.arg_class_ids
                      c_return_class_id := sig.ret_class_id
                      native_calling_convention := conv } }

/-- Modelled from the spec: `ReturnsCompound()` (declared at header line
207, implemented in `marshaller.cc`) — true exactly when the native return
type is composite. -/
def ReturnsCompound (m : CallMarshaller) : Bool :=
  (m.base.Location kResultIndex).payload_type.IsCompound

/-- Modelled from the spec: `CompoundReturnSizeInBytes()` (declared at
header line 208, implemented in `marshaller.cc`) — the composite return
type's size in bytes, sizing the caller-allocated scratch buffer. -/
def CompoundReturnSizeInBytes (m : CallMarshaller) : Nat :=
  match (m.base.Location kResultIndex).payload_type with
  | .compound n => n
  | _ => 0

end CallMarshaller

/-- The flattened per-definition location list of a classified signature:
each scalar location is one entry, a composite split across N locations
contributes its N sub-locations, and a pointer-to-memory composite
contributes the single definition carrying the pointer. -/
def flattenDefinitionLocations : List NativeLocation → List NativeLocation
  | [] => []
  | .multiple _ parts :: rest => parts ++ flattenDefinitionLocations rest
  | l :: rest => l :: flattenDefinitionLocations rest

/-- Modelled from the spec: the callback entry sequence saves every
incoming native parameter — even ones the ABI assigned to registers — to a
dedicated stack frame before managed code resumes; each definition is
relocated to a stack slot at a consecutive word offset. -/
def saveToStackFrame : List NativeLocation → Nat → List NativeLocation
  | [], _ => []
  | l :: rest, off =>
    .stackSlot off l.payload_type l.container_type :: saveToStackFrame rest (off + 8)

/-- `CallbackMarshaller`: specializes `BaseMarshaller` for the
native→managed direction; adds the saved-parameter stack locations
`callback_locs_` (header, lines 223–260). -/
structure CallbackMarshaller where
  c_arg_class_ids : List Nat
  c_return_class_id : Nat
  native_calling_convention : NativeCallingConvention
  callback_locs : List NativeLocation

namespace CallbackMarshaller

/-- The `CallbackMarshaller` constructor (header, lines 229–239): the base
subobject is constructed with `dart_signature_params_start_at` fixed to 0. -/
def base (cm : CallbackMarshaller) : BaseMarshaller :=
  { dart_signature_params_start_at := 0
    c_arg_class_ids := cm.c_arg_class_ids
    c_return_class_id := cm.c_return_class_id
    native_calling_convention := cm.native_calling_convention }

/-- Modelled from the spec: `CallbackMarshaller::FromFunction` (declared at
header lines 225–227, implemented in `marshaller.cc`) — classifies the
native signature for the callback direction and computes the
saved-parameter stack locations; on failure the error message is set and no
marshaller instance is produced. -/
def FromFunction (sig : FfiSignature) : Except String CallbackMarshaller :=
  match NativeFunctionTypeFromFunctionType sig with
  | .error e => .error e
  | .ok nft =>
    match classifyConvention nft with
    | .error e => .error e
    | .ok conv =>
      .ok { c_arg_class_ids := sig.arg_class_ids
            c_return_class_id := sig.ret_class_id
            native_calling_convention := conv
            callback_locs :=
              saveToStackFrame (flattenDefinitionLocations conv.argument_locations) 0 }

/-- Modelled from the spec: `NativeLocationOfNativeParameter(def_index)`
(declared at header lines 244–245, implemented in `marshaller.cc`) — the
location within the saved stack frame that the definition is read from. -/
def NativeLocationOfNativeParameter (cm : CallbackMarshaller) (def_index : Int) :
    NativeLocation :=
  cm.callback_locs.getD def_index.toNat locDefault

/-- `LocationOfNativeParameter(def_index)` (header, lines 248–254): unwraps
a pointer-to-memory location to the location of the pointer itself. -/
def LocationOfNativeParameter (cm : CallbackMarshaller) (def_index : Int) :
    NativeLocation :=
  let native_loc := cm.NativeLocationOfNativeParameter def_index
  match native_loc with
  | .pointerToMemory pointerLoc _ => pointerLoc
  | l => l

end CallbackMarshaller

/-! ## Sample instances used by witnesses and counterexamples -/

/-- A sample marshaller: a handle argument and a float argument, void
return. -/
def sampleMarshaller : BaseMarshaller :=
  { dart_signature_params_start_at := 0
    c_arg_class_ids := [kFfiHandleCid, kPointerCid]
    c_return_class_id := kFfiVoidCid
    native_calling_convention :=
      { argument_locations := [.register .int .int, .register .float .float]
        return_location := .register .int .int
        contains_varargs := false } }

/-- A marshaller whose first argument was assigned an integer payload in a
floating-point container — the "reverse" combination of `RequiresBitCast`. -/
def reverseCaseMarshaller : BaseMarshaller :=
  { dart_signature_params_start_at := 0
    c_arg_class_ids := [kPointerCid]
    c_return_class_id := kFfiVoidCid
    native_calling_convention :=
      { argument_locations := [.register .int .float]
        return_location := .register .int .int
        contains_varargs := false } }

/-- A sample two-parameter native signature, `(int, double) -> int`. -/
def sampleCallbackSig : FfiSignature :=
  { arg_types := [.int, .float]
    ret_type := .int
    arg_class_ids := [kPointerCid, kPointerCid]
    ret_class_id := kPointerCid
    varargs := false }

/-- The callback marshaller `CallbackMarshaller.FromFunction` produces for
`sampleCallbackSig`. -/
def sampleCallbackMarshaller : CallbackMarshaller :=
  { c_arg_class_ids := [kPointerCid, kPointerCid]
    c_return_class_id := kPointerCid
    native_calling_convention :=
      { argument_locations := [.register .int .int, .register .float .float]
        return_location := .register .int .int
        contains_varargs := false }
    callback_locs := [.stackSlot 0 .int .int, .stackSlot 8 .float .float] }

/-- A sample native signature returning a 24-byte struct. -/
def compoundReturnSig : FfiSignature :=
  { arg_types := [.int]
    ret_type := .compound 24
    arg_class_ids := [kPointerCid]
    ret_class_id := 5
    varargs := false }

/-- The call marshaller `CallMarshaller.FromFunction` produces for
`compoundReturnSig`. -/
def compoundReturnMarshaller : CallMarshaller :=
  { base := { dart_signature_params_start_at := 0
              c_arg_class_ids := [kPointerCid]
              c_return_class_id := 5
              native_calling_convention :=
                { argument_locations := [.register .int .int]
                  return_location := .pointerToMemory (.register .int .int) (.compound 24)
                  contains_varargs := false } } }

/-! ## Helper lemmas -/

/-- A positional default-lookup at an in-range index does not depend on the
default. -/
lemma getD_default_irrel {α : Type} (l : List α) (i : Nat) (d d' : α)
    (h : i < l.length) : l.getD i d = l.getD i d' := by
  induction l generalizing i with
  | nil => simp at h
  | cons a t ih =>
    cases i with
    | zero => rfl
    | succ j =>
      simp only [List.getD_cons_succ]
      exact ih j (by simpa using h)

/-- A positional default-lookup at an in-range index returns an element of
the list. -/
lemma getD_mem {α : Type} (l : List α) (i : Nat) (d : α)
    (h : i < l.length) : l.getD i d ∈ l := by
  induction l generalizing i with
  | nil => simp at h
  | cons a t ih =>
    cases i with
    | zero => exact List.mem_cons_self a t
    | succ j =>
      simp only [List.getD_cons_succ]
      exact List.mem_cons_of_mem a (ih j (by simpa using h))

/-- Lookup in the mapped definition-count list agrees with counting the
definitions of the looked-up location. -/
lemma getD_map_numDefinitions (l : List NativeLocation) (i : Nat) :
    (l.map NativeLocation.numDefinitions).getD i 1 =
      (l.getD i locDefault).numDefinitions := by
  induction l generalizing i with
  | nil => rfl
  | cons a t ih =>
    cases i with
    | zero => rfl
    | succ j => simpa using ih j

/-- Mapping the in-range default-lookup over the index range recovers the
list. -/
lemma range_map_getD {α : Type} (l : List α) (d : α) :
    (List.range l.length).map (fun i => l.getD i d) = l := by
  induction l with
  | nil => rfl
  | cons a t ih =>
    rw [List.length_cons, List.range_succ_eq_map, List.map_cons, List.map_map]
    have hcomp : ((fun i => (a :: t).getD i d) ∘ Nat.succ) = fun i => t.getD i d := by
      funext i; rfl
    rw [hcomp, ih]
    rfl

/-- The argument search returns `a` on the global index formed from the sum
of the first `a` counts plus an in-range offset. -/
lemma findArgIndex_take_sum (l : List Nat) (a k : Nat)
    (ha : a < l.length) (hk : k < l.getD a 0) :
    BaseMarshaller.findArgIndex l ((l.take a).sum + k) = a := by
  induction l generalizing a k with
  | nil => simp at ha
  | cons c rest ih =>
    cases a with
    | zero =>
      have hk0 : k < c := hk
      simp only [List.take_zero, List.sum_nil, Nat.zero_add,
        BaseMarshaller.findArgIndex]
      rw [if_pos hk0]
    | succ a' =>
      have ha' : a' < rest.length := by simpa using ha
      have hk' : k < rest.getD a' 0 := by simpa using hk
      simp only [List.take_succ_cons, List.sum_cons, BaseMarshaller.findArgIndex]
      rw [if_neg (by omega)]
      have harg : c + (List.take a' rest).sum + k - c = (List.take a' rest).sum + k := by
        omega
      rw [harg, ih a' k ha' hk']

/-- Every location in a saved-parameter stack frame is stack-relative. -/
lemma saveToStackFrame_isStack (locs : List NativeLocation) (off : Nat) :
    ∀ x ∈ saveToStackFrame locs off, x.IsStack = true := by
  induction locs generalizing off with
  | nil => intro x hx; simp [saveToStackFrame] at hx
  | cons l rest ih =>
    intro x hx
    simp only [saveToStackFrame, List.mem_cons] at hx
    rcases hx with h | h
    · subst h; rfl
    · exact ih (off + 8) x h

/-- A location the classifier accepts carries the classified type as its
payload type. -/
lemma classifyType_payload (t : NativeTypeKind) (l : NativeLocation)
    (h : classifyType t = .ok l) : l.payload_type = t := by
  cases t with
  | int => simp [classifyType] at h; subst h; rfl
  | float => simp [classifyType] at h; subst h; rfl
  | compound n =>
    cases n with
    | zero => simp [classifyType] at h
    | succ n' =>
      by_cases hn : n' + 1 ≤ 16
      · simp [classifyType, hn] at h
        subst h; rfl
      · simp [classifyType, hn] at h
        subst h; rfl

/-- Every error `checkRepresentable` reports is non-empty. -/
lemma checkRepresentable_error_nonempty (t : NativeTypeKind) (e : String)
    (h : checkRepresentable t = .error e) : e ≠ "" := by
  cases t with
  | int => simp [checkRepresentable] at h
  | float => simp [checkRepresentable] at h
  | compound n =>
    cases n with
    | zero =>
      simp [checkRepresentable] at h
      subst h; decide
    | succ n' => simp [checkRepresentable] at h

/-- Every error `checkRepresentableList` reports is non-empty. -/
lemma checkRepresentableList_error_nonempty (l : List NativeTypeKind) (e : String)
    (h : checkRepresentableList l = .error e) : e ≠ "" := by
  induction l with
  | nil => simp [checkRepresentableList] at h
  | cons t ts ih =>
    simp only [checkRepresentableList] at h
    cases hc : checkRepresentable t with
    | error e' =>
      rw [hc] at h
      cases h
      exact checkRepresentable_error_nonempty t e hc
    | ok u =>
      rw [hc] at h
      exact ih h

/-- Every error `NativeFunctionTypeFromFunctionType` reports is non-empty. -/
lemma nftFromFunctionType_error_nonempty (sig : FfiSignature) (e : String)
    (h : NativeFunctionTypeFromFunctionType sig = .error e) : e ≠ "" := by
  simp only [NativeFunctionTypeFromFunctionType] at h
  cases ha : checkRepresentableList sig.arg_types with
  | error e' =>
    rw [ha] at h
    cases h
    exact checkRepresentableList_error_nonempty _ e ha
  | ok u =>
    rw [ha] at h
    cases hr : checkRepresentable sig.ret_type with
    | error e' =>
      rw [hr] at h
      cases h
      exact checkRepresentable_error_nonempty _ e hr
    | ok u' =>
      rw [hr] at h
      cases h

/-- Every error `classifyType` reports is non-empty. -/
lemma classifyType_error_nonempty (t : NativeTypeKind) (e : String)
    (h : classifyType t = .error e) : e ≠ "" := by
  cases t with
  | int => simp [classifyType] at h
  | float => simp [classifyType] at h
  | compound n =>
    cases n with
    | zero =>
      simp [classifyType] at h
      subst h; decide
    | succ n' =>
      by_cases hn : n' + 1 ≤ 16 <;> simp [classifyType, hn] at h

/-- Every error `classifyTypeList` reports is non-empty. -/
lemma classifyTypeList_error_nonempty (l : List NativeTypeKind) (e : String)
    (h : classifyTypeList l = .error e) : e ≠ "" := by
  induction l with
  | nil => simp [classifyTypeList] at h
  | cons t ts ih =>
    simp only [classifyTypeList] at h
    cases hc : classifyType t with
    | error e' =>
      rw [hc] at h
      cases h
      exact classifyType_error_nonempty t e hc
    | ok loc =>
      rw [hc] at h
      cases hl : classifyTypeList ts with
      | error e' =>
        rw [hl] at h
        cases h
        exact ih hl
      | ok locs =>
        rw [hl] at h
        cases h

/-- A successfully derived native function type carries the signature's
argument and return types. -/
lemma nftFromFunctionType_ok (sig : FfiSignature) (nft : NativeFunctionType)
    (h : NativeFunctionTypeFromFunctionType sig = .ok nft) :
    nft.argument_types = sig.arg_types ∧ nft.return_type = sig.ret_type := by
  rw [NativeFunctionTypeFromFunctionType] at h
  cases ha : checkRepresentableList sig.arg_types with
  | error e => rw [ha] at h; cases h
  | ok u =>
    rw [ha] at h
    cases hr : checkRepresentable sig.ret_type with
    | error e => rw [hr] at h; cases h
    | ok u' =>
      rw [hr] at h
      injection h with h2
      subst h2
      exact ⟨rfl, rfl⟩

/-- A successfully classified convention's return location is the
classifier's result on the return type. -/
lemma classifyConvention_ok_ret (nft : NativeFunctionType)
    (conv : NativeCallingConvention) (h : classifyConvention nft = .ok conv) :
    classifyType nft.return_type = .ok conv.return_location := by
  rw [classifyConvention] at h
  cases ha : classifyTypeList nft.argument_types with
  | error e => rw [ha] at h; cases h
  | ok locs =>
    rw [ha] at h
    cases hr : classifyType nft.return_type with
    | error e => rw [hr] at h; cases h
    | ok loc =>
      rw [hr] at h
      injection h with h2
      subst h2
      rfl

/-- Every error `classifyConvention` reports is non-empty. -/
lemma classifyConvention_error_nonempty (nft : NativeFunctionType) (e : String)
    (h : classifyConvention nft = .error e) : e ≠ "" := by
  simp only [classifyConvention] at h
  cases ha : classifyTypeList nft.argument_types with
  | error e' =>
    rw [ha] at h
    cases h
    exact classifyTypeList_error_nonempty _ e ha
  | ok locs =>
    rw [ha] at h
    cases hr : classifyType nft.return_type with
    | error e' =>
      rw [hr] at h
      cases h
      exact classifyType_error_nonempty _ e hr
    | ok loc =>
      rw [hr] at h
      cases h

/-- Every error `CallMarshaller.FromFunction` reports is non-empty. -/
lemma callMarshallerFromFunction_error_nonempty (sig : FfiSignature) (start : Int)
    (e : String) (h : CallMarshaller.FromFunction sig start = .error e) : e ≠ "" := by
  rw [CallMarshaller.FromFunction] at h
  split at h
  next e' heq =>
    cases h
    exact nftFromFunctionType_error_nonempty sig e heq
  next nft heq =>
    split at h
    next e' heq2 =>
      cases h
      exact classifyConvention_error_nonempty nft e heq2
    next conv heq2 => cases h

/-- Every error `CallbackMarshaller.FromFunction` reports is non-empty. -/
lemma callbackMarshallerFromFunction_error_nonempty (sig : FfiSignature)
    (e : String) (h : CallbackMarshaller.FromFunction sig = .error e) : e ≠ "" := by
  rw [CallbackMarshaller.FromFunction] at h
  split at h
  next e' heq =>
    cases h
    exact nftFromFunctionType_error_nonempty sig e heq
  next nft heq =>
    split at h
    next e' heq2 =>
      cases h
      exact classifyConvention_error_nonempty nft e heq2
    next conv heq2 => cases h

/-- A marshaller on a soft-float convention: the argument's floating-point
payload is carried in an integer container. -/
def softFloatMarshaller : BaseMarshaller :=
  { dart_signature_params_start_at := 0
    c_arg_class_ids := [kPointerCid]
    c_return_class_id := kFfiVoidCid
    native_calling_convention :=
      { argument_locations := [.register .float .int]
        return_location := .register .int .int
        contains_varargs := false } }

/-! ## Claim theorems -/

/-- C1: for every marshaller, every real argument index and every local
definition index within the argument's definition count, translating to a
global definition index and back is the identity:
`ArgumentIndex (DefinitionIndex localIdx arg) = arg` and
`DefinitionInArgument (DefinitionIndex localIdx arg) arg = localIdx`. -/
theorem C1_index_round_trip (m : BaseMarshaller) (arg localIdx : Int)
    (h1 : 0 ≤ arg) (h2 : arg < m.num_args)
    (h3 : 0 ≤ localIdx) (h4 : localIdx < (m.NumDefinitionsArg arg : Int)) :
    m.ArgumentIndex (m.DefinitionIndex localIdx arg) = arg ∧
    m.DefinitionInArgument (m.DefinitionIndex localIdx arg) arg = localIdx := by
  have hlen : m.argDefCounts.length =
      m.native_calling_convention.argument_locations.length := by
    simp [BaseMarshaller.argDefCounts]
  have h2' : arg.toNat < m.argDefCounts.length := by
    simp only [BaseMarshaller.num_args] at h2
    omega
  have hret : m.ArgumentIndexIsReturn arg = false := by
    simp only [BaseMarshaller.ArgumentIndexIsReturn, kResultIndex,
      beq_eq_false_iff_ne, ne_eq]
    omega
  have hne : ¬ arg = kResultIndex := by
    simp only [kResultIndex]
    omega
  have hfirst : m.FirstDefinitionIndex arg =
      ((m.argDefCounts.take arg.toNat).sum : Int) := by
    rw [BaseMarshaller.FirstDefinitionIndex,
      if_neg (by simp only [kResultIndex]; omega)]
  have hnum : m.NumDefinitionsArg arg = m.argDefCounts.getD arg.toNat 0 := by
    rw [BaseMarshaller.NumDefinitionsArg, if_neg (by simp [hret]),
      BaseMarshaller.Location, if_neg hne, ← getD_map_numDefinitions]
    exact getD_default_irrel _ _ 1 0 h2'
  have hdef : m.DefinitionIndex localIdx arg =
      ((m.argDefCounts.take arg.toNat).sum : Int) + localIdx := by
    rw [BaseMarshaller.DefinitionIndex, if_neg (by simp [hret]), hfirst]
  have hk : localIdx.toNat < m.argDefCounts.getD arg.toNat 0 := by
    rw [hnum] at h4
    omega
  have hgret : m.DefinitionIndexIsReturn
      (((m.argDefCounts.take arg.toNat).sum : Int) + localIdx) = false := by
    simp only [BaseMarshaller.DefinitionIndexIsReturn, kResultIndex,
      decide_eq_false_iff_not]
    omega
  have hgt : ((((m.argDefCounts.take arg.toNat).sum : Int)) + localIdx).toNat =
      (m.argDefCounts.take arg.toNat).sum + localIdx.toNat := by
    omega
  constructor
  · rw [hdef, BaseMarshaller.ArgumentIndex, if_neg (by rw [hgret]; simp), hgt,
      findArgIndex_take_sum m.argDefCounts arg.toNat localIdx.toNat h2' hk]
    omega
  · rw [hdef, BaseMarshaller.DefinitionInArgument, if_neg (by simp [hret]), hfirst]
    omega

/-- Witness for C1: concrete marshaller, argument 1, local index 0. -/
theorem C1_witness :
    sampleMarshaller.ArgumentIndex (sampleMarshaller.DefinitionIndex 0 1) = 1 ∧
    sampleMarshaller.DefinitionInArgument (sampleMarshaller.DefinitionIndex 0 1) 1 = 0 :=
  C1_index_round_trip sampleMarshaller 1 0 (by decide) (by decide) (by decide)
    (by decide)

/-- C2 (amended): `RequiresBitCast` is true exactly when the location's
payload type is floating-point and its container type is integer; all
other combinations — including an integer payload in a floating-point
container — yield false. -/
theorem C2_requires_bitcast_iff (m : BaseMarshaller) (i : Int) :
    m.RequiresBitCast i = true ↔
      (m.Location i).payload_type = .float ∧ (m.Location i).container_type = .int := by
  rw [BaseMarshaller.RequiresBitCast]
  cases hp : (m.Location i).payload_type <;>
    cases hc : (m.Location i).container_type <;>
      simp [NativeTypeKind.IsFloat, NativeTypeKind.IsInt]

/-- Counterexample to C2 as stated: at a location carrying an integer
payload in a floating-point container (the "reverse" combination, which
the claim says requires a bit-cast), `RequiresBitCast` is false. -/
theorem C2_counterexample :
    (reverseCaseMarshaller.Location 0).payload_type.IsInt = true ∧
    (reverseCaseMarshaller.Location 0).container_type.IsFloat = true ∧
    reverseCaseMarshaller.RequiresBitCast 0 = false := by
  decide

/-- Witness for C2: a soft-float location (float payload, int container)
does require a bit-cast. -/
theorem C2_witness : softFloatMarshaller.RequiresBitCast 0 = true :=
  (C2_requires_bitcast_iff softFloatMarshaller 0).mpr ⟨rfl, rfl⟩

/-- C3: the sum over all argument indices of the per-argument definition
counts equals the flattened global definition count `NumDefinitions()`. -/
theorem C3_flattening_consistency (m : BaseMarshaller) :
    ((List.range m.num_args.toNat).map
      (fun i : Nat => m.NumDefinitionsArg (i : Int))).sum = m.NumDefinitions := by
  have hnum : ∀ i : Nat, m.NumDefinitionsArg (i : Int) = m.argDefCounts.getD i 1 := by
    intro i
    rw [BaseMarshaller.NumDefinitionsArg,
      if_neg (by
        simp only [BaseMarshaller.ArgumentIndexIsReturn, kResultIndex, beq_iff_eq]
        omega),
      BaseMarshaller.Location, if_neg (by simp only [kResultIndex]; omega),
      ← getD_map_numDefinitions]
    rfl
  have hlen : m.num_args.toNat = m.argDefCounts.length := by
    simp [BaseMarshaller.num_args, BaseMarshaller.argDefCounts]
  simp only [hnum, hlen]
  rw [range_map_getD]
  rfl

/-- C4: `ArgumentIndexIsReturn` holds exactly at the reserved sentinel
`kResultIndex` and at no real (nonnegative) argument index. -/
theorem C4_return_sentinel (m : BaseMarshaller) (x : Int) :
    (m.ArgumentIndexIsReturn x = true ↔ x = kResultIndex) ∧
    (0 ≤ x → m.ArgumentIndexIsReturn x = false) := by
  constructor
  · simp [BaseMarshaller.ArgumentIndexIsReturn]
  · intro hx
    simp only [BaseMarshaller.ArgumentIndexIsReturn, kResultIndex,
      beq_eq_false_iff_ne, ne_eq]
    omega

/-- Witness for C4: the sentinel is classified as return, index 0 is not. -/
theorem C4_witness :
    sampleMarshaller.ArgumentIndexIsReturn (-1) = true ∧
    sampleMarshaller.ArgumentIndexIsReturn 0 = false :=
  ⟨(C4_return_sentinel sampleMarshaller (-1)).1.mpr rfl,
   (C4_return_sentinel sampleMarshaller 0).2 (by decide)⟩

/-- C5: `Location` returns the classifier's return location at the return
sentinel and the classifier's argument location at every valid argument
index. -/
theorem C5_location_dispatch (m : BaseMarshaller) (i : Int) :
    (i = kResultIndex →
      m.Location i = m.native_calling_convention.return_location) ∧
    (0 ≤ i → i < m.num_args →
      m.Location i =
        m.native_calling_convention.argument_locations.getD i.toNat locDefault) := by
  constructor
  · intro h
    rw [BaseMarshaller.Location, if_pos h]
  · intro h0 _h1
    rw [BaseMarshaller.Location, if_neg (by simp only [kResultIndex]; omega)]

/-- Witness for C5 at the sentinel and at argument index 0. -/
theorem C5_witness :
    sampleMarshaller.Location (-1) =
      sampleMarshaller.native_calling_convention.return_location ∧
    sampleMarshaller.Location 0 =
      sampleMarshaller.native_calling_convention.argument_locations.getD 0 locDefault :=
  ⟨(C5_location_dispatch sampleMarshaller (-1)).1 rfl,
   (C5_location_dispatch sampleMarshaller 0).2 (by decide) (by decide)⟩

/-- C6: `IsHandle` and `IsVoid` take precedence over `IsPointer` and
`IsBool`: a handle-classified value is never reported as a raw pointer or
bool, and neither is a void-classified value. -/
theorem C6_handle_void_precedence (m : BaseMarshaller) (arg : Int) :
    (m.IsHandle arg = true → m.IsPointer arg = false ∧ m.IsBool arg = false) ∧
    (m.IsVoid arg = true → m.IsPointer arg = false ∧ m.IsBool arg = false) := by
  constructor
  · intro h
    refine ⟨?_, ?_⟩
    · rw [BaseMarshaller.IsPointer, if_pos h]
    · rw [BaseMarshaller.IsHandle] at h
      simp only [beq_iff_eq] at h
      rw [BaseMarshaller.IsBool]
      simp [h, kFfiHandleCid, kFfiBoolCid]
  · intro h
    rw [BaseMarshaller.IsVoid] at h
    simp only [beq_iff_eq] at h
    have hh : m.IsHandle arg = false := by
      rw [BaseMarshaller.IsHandle]
      simp [h, kFfiVoidCid, kFfiHandleCid]
    refine ⟨?_, ?_⟩
    · rw [BaseMarshaller.IsPointer, if_neg (by simp [hh])]
      simp [h, kFfiVoidCid, kPointerCid]
    · rw [BaseMarshaller.IsBool]
      simp [h, kFfiVoidCid, kFfiBoolCid]

/-- Witness for C6: a handle argument and the void return of the sample
marshaller are reported as neither pointer nor bool. -/
theorem C6_witness :
    (sampleMarshaller.IsHandle 0 = true ∧
      sampleMarshaller.IsPointer 0 = false ∧ sampleMarshaller.IsBool 0 = false) ∧
    (sampleMarshaller.IsVoid (-1) = true ∧
      sampleMarshaller.IsPointer (-1) = false ∧
      sampleMarshaller.IsBool (-1) = false) :=
  ⟨⟨by decide, (C6_handle_void_precedence sampleMarshaller 0).1 (by decide)⟩,
   ⟨by decide, (C6_handle_void_precedence sampleMarshaller (-1)).2 (by decide)⟩⟩

/-- C7: every valid definition index of a callback marshaller produced by
`CallbackMarshaller.FromFunction` reads its native parameter from a
stack-relative location, even when the classifier assigned a register. -/
theorem C7_callback_params_on_stack (sig : FfiSignature) (cm : CallbackMarshaller)
    (h : CallbackMarshaller.FromFunction sig = .ok cm)
    (d : Int) (_h0 : 0 ≤ d) (h1 : d.toNat < cm.callback_locs.length) :
    (cm.NativeLocationOfNativeParameter d).IsStack = true := by
  rw [CallbackMarshaller.FromFunction] at h
  split at h
  next e heq => cases h
  next nft heq =>
    split at h
    next e heq2 => cases h
    next conv heq2 =>
      injection h with h2
      subst h2
      simp only [CallbackMarshaller.NativeLocationOfNativeParameter]
      exact saveToStackFrame_isStack _ 0 _ (getD_mem _ _ _ h1)

/-- Witness for C7: the classifier put the second parameter of
`sampleCallbackSig` in a float register, yet the callback marshaller reads
it from a stack slot. -/
theorem C7_witness :
    CallbackMarshaller.FromFunction sampleCallbackSig = .ok sampleCallbackMarshaller ∧
    (sampleCallbackMarshaller.NativeLocationOfNativeParameter 1).IsStack = true :=
  ⟨rfl,
   C7_callback_params_on_stack sampleCallbackSig sampleCallbackMarshaller rfl 1
     (by decide) (by decide)⟩

/-- C8: for every call marshaller produced by `CallMarshaller.FromFunction`,
`ReturnsCompound` is true exactly when the native return type is composite,
and then `CompoundReturnSizeInBytes` is the composite's size in bytes. -/
theorem C8_compound_return (sig : FfiSignature) (start : Int) (m : CallMarshaller)
    (h : CallMarshaller.FromFunction sig start = .ok m) :
    (m.ReturnsCompound = true ↔ sig.ret_type.IsCompound = true) ∧
    (∀ n : Nat, sig.ret_type = .compound n → m.CompoundReturnSizeInBytes = n) := by
  rw [CallMarshaller.FromFunction] at h
  split at h
  next e heq => cases h
  next nft heq =>
    split at h
    next e heq2 => cases h
    next conv heq2 =>
      injection h with h2
      subst h2
      have hp : conv.return_location.payload_type = sig.ret_type := by
        have hr := classifyConvention_ok_ret nft conv heq2
        rw [(nftFromFunctionType_ok sig nft heq).2] at hr
        exact classifyType_payload _ _ hr
      have hret :
          (BaseMarshaller.mk start sig.arg_class_ids sig.ret_class_id
              conv).Location kResultIndex = conv.return_location := by
        rw [BaseMarshaller.Location, if_pos rfl]
      refine ⟨?_, ?_⟩
      · rw [CallMarshaller.ReturnsCompound]
        rw [hret, hp]
      · intro n hrt
        rw [CallMarshaller.CompoundReturnSizeInBytes, hret, hp, hrt]

/-- Witness for C8: a signature returning a 24-byte struct yields a
marshaller with `ReturnsCompound` true and a 24-byte compound return
size. -/
theorem C8_witness :
    CallMarshaller.FromFunction compoundReturnSig 0 = .ok compoundReturnMarshaller ∧
    compoundReturnMarshaller.ReturnsCompound = true ∧
    compoundReturnMarshaller.CompoundReturnSizeInBytes = 24 :=
  ⟨rfl,
   (C8_compound_return compoundReturnSig 0 compoundReturnMarshaller rfl).1.mpr rfl,
   (C8_compound_return compoundReturnSig 0 compoundReturnMarshaller rfl).2 24 rfl⟩

/-- C9: each factory either produces an instance or fails with a non-empty
error message, and — being pure functions of their inputs — a second
invocation with the same inputs yields the same outcome. -/
theorem C9_factory_outcomes (sig : FfiSignature) (start : Int) :
    ((∃ m, CallMarshaller.FromFunction sig start = .ok m) ∨
      (∃ e, CallMarshaller.FromFunction sig start = .error e ∧ e ≠ "")) ∧
    ((∃ cm, CallbackMarshaller.FromFunction sig = .ok cm) ∨
      (∃ e, CallbackMarshaller.FromFunction sig = .error e ∧ e ≠ "")) ∧
    ((∃ nft, NativeFunctionTypeFromFunctionType sig = .ok nft) ∨
      (∃ e, NativeFunctionTypeFromFunctionType sig = .error e ∧ e ≠ "")) ∧
    CallMarshaller.FromFunction sig start = CallMarshaller.FromFunction sig start ∧
    CallbackMarshaller.FromFunction sig = CallbackMarshaller.FromFunction sig := by
  refine ⟨?_, ?_, ?_, rfl, rfl⟩
  · cases hx : CallMarshaller.FromFunction sig start with
    | ok m => exact Or.inl ⟨m, rfl⟩
    | error e =>
      exact Or.inr ⟨e, rfl, callMarshallerFromFunction_error_nonempty sig start e hx⟩
  · cases hx : CallbackMarshaller.FromFunction sig with
    | ok cm => exact Or.inl ⟨cm, rfl⟩
    | error e =>
      exact Or.inr ⟨e, rfl, callbackMarshallerFromFunction_error_nonempty sig e hx⟩
  · cases hx : NativeFunctionTypeFromFunctionType sig with
    | ok nft => exact Or.inl ⟨nft, rfl⟩
    | error e => exact Or.inr ⟨e, rfl, nftFromFunctionType_error_nonempty sig e hx⟩

/-- C10: every `CallbackMarshaller`'s base subobject is constructed with
`dart_signature_params_start_at` fixed to 0 — callback signatures never
have the synthetic leading function-pointer parameter. -/
theorem C10_callback_params_start_at_zero (cm : CallbackMarshaller) :
    cm.base.dart_signature_params_start_at = 0 := rfl

end FfiMarshaller
